import Mathlib

/-!
Shallow embedding of the dream-sparer RIFX reader (src/main.rs).

A file is modelled as a list of natural numbers, one per byte (values below
256 for genuine files; theorems that need byte-ness take it as a hypothesis).
The sequential file cursor of the Rust code becomes an explicit position
passed through the walker.  Machine integers are naturals reduced modulo
2 to the 32 where the Rust u32 arithmetic can wrap, namely the running
offset, the padded chunk size and the products checked by the sound-header
decoder (release-mode wrapping semantics).  Fallible operations return
Option or Except; writing to the filesystem is modelled by a boolean that
says whether writes succeed.
-/

/-- Modulus of unsigned 32-bit arithmetic. -/
def M32 : Nat := 4294967296

/-- Big-endian value of four bytes, as in u32::from_be_bytes. -/
def beU32of (b0 b1 b2 b3 : Nat) : Nat :=
  ((b0 * 256 + b1) * 256 + b2) * 256 + b3

/-- Little-endian value of four bytes, as in u32::from_le_bytes. -/
def leU32of (b0 b1 b2 b3 : Nat) : Nat :=
  ((b3 * 256 + b2) * 256 + b1) * 256 + b0

/-- Byte swap of a 32-bit value, the effect of u32::from_be on a
little-endian host. -/
def swap32 (v : Nat) : Nat :=
  (v % 256) * 16777216 + (v / 256 % 256) * 65536 +
    (v / 65536 % 256) * 256 + (v / 16777216 % 256)

/-- Value of the four bytes of a buffer under the given container
endianness, as in read_u32 of the source. -/
def readU32val (littleEndian : Bool) (bs : List Nat) : Nat :=
  if littleEndian then
    leU32of (bs.getD 0 0) (bs.getD 1 0) (bs.getD 2 0) (bs.getD 3 0)
  else
    beU32of (bs.getD 0 0) (bs.getD 1 0) (bs.getD 2 0) (bs.getD 3 0)

/-- Magic tag of a little-endian RIFX file. -/
def XFIR : List Nat := [88, 70, 73, 82]

/-- Magic tag of a big-endian RIFX file. -/
def RIFX : List Nat := [82, 73, 70, 88]

/-- Type tag of a sound-header chunk. -/
def sndH : List Nat := [115, 110, 100, 72]

/-- Reading n bytes at a position: succeeds exactly when that many bytes
exist, as read_exact does; the bytes come back unchanged. -/
def readBytes (file : List Nat) (pos n : Nat) : Option (List Nat) :=
  if pos + n ≤ file.length then some ((file.drop pos).take n) else none

/-- Padded chunk extent: chunk_size + (chunk_size & 1) in wrapping u32
arithmetic. -/
def paddedSize (declaredSize : Nat) : Nat :=
  (declaredSize + declaredSize % 2) % M32

/-- UTF-8 continuation byte. -/
def utf8Cont (b : Nat) : Bool := 128 ≤ b && b ≤ 191

/-- Strict UTF-8 validity of a byte list, as std::str::from_utf8 checks it
(no overlong forms, no surrogates, no values above U+10FFFF). -/
def isValidUtf8 : List Nat → Bool
  | [] => true
  | b :: rest =>
    if b ≤ 127 then isValidUtf8 rest
    else if 194 ≤ b && b ≤ 223 then
      match rest with
      | c1 :: rest2 => utf8Cont c1 && isValidUtf8 rest2
      | [] => false
    else if b = 224 then
      match rest with
      | c1 :: c2 :: rest2 =>
        (160 ≤ c1 && c1 ≤ 191) && utf8Cont c2 && isValidUtf8 rest2
      | _ => false
    else if (225 ≤ b && b ≤ 236) || b = 238 || b = 239 then
      match rest with
      | c1 :: c2 :: rest2 => utf8Cont c1 && utf8Cont c2 && isValidUtf8 rest2
      | _ => false
    else if b = 237 then
      match rest with
      | c1 :: c2 :: rest2 =>
        (128 ≤ c1 && c1 ≤ 159) && utf8Cont c2 && isValidUtf8 rest2
      | _ => false
    else if b = 240 then
      match rest with
      | c1 :: c2 :: c3 :: rest2 =>
        (144 ≤ c1 && c1 ≤ 191) && utf8Cont c2 && utf8Cont c3 &&
          isValidUtf8 rest2
      | _ => false
    else if 241 ≤ b && b ≤ 243 then
      match rest with
      | c1 :: c2 :: c3 :: rest2 =>
        utf8Cont c1 && utf8Cont c2 && utf8Cont c3 && isValidUtf8 rest2
      | _ => false
    else if b = 244 then
      match rest with
      | c1 :: c2 :: c3 :: rest2 =>
        (128 ≤ c1 && c1 ≤ 143) && utf8Cont c2 && utf8Cont c3 &&
          isValidUtf8 rest2
      | _ => false
    else false

/-- Consistency warnings the sound-header decoder can print, in the order
the source checks them. -/
inductive SndhWarning where
  | badMagic
  | nonZeroReserved
  | byteCountMismatch
  | frameCountMismatch
  | bytesPerSecondMismatch
  | bitDepthNotMultipleOf8
  | bytesPerSampleTooSmall
  | bytesPerFrameMismatch
deriving DecidableEq

/-- Terminal result of decoding one sound-header body. -/
inductive SndhOutcome where
  | wrongSize
  | unsupportedBitDepth
  | translated (format : String) (channelCount sampleRate : Nat)
deriving DecidableEq

/-- Warnings printed plus the terminal outcome for one sound-header body. -/
structure SndhResult where
  warnings : List SndhWarning
  outcome : SndhOutcome
deriving DecidableEq

/-- Field i of a sound-header body: the big-endian u32 at bytes 4i..4i+3.
This is the net effect of the read_unaligned-then-from_be sequence of the
source on any host; sndhFieldHost below models that sequence literally and
the two are proved equal. -/
def sndhField (buf : List Nat) (i : Nat) : Nat :=
  beU32of (buf.getD (4 * i) 0) (buf.getD (4 * i + 1) 0)
    (buf.getD (4 * i + 2) 0) (buf.getD (4 * i + 3) 0)

/-- Field i of a sound-header body as the source computes it: first a
native-order u32 load of bytes 4i..4i+3 (ptr::read_unaligned), then
u32::from_be, which byte swaps on a little-endian host and is the identity
on a big-endian one. -/
def sndhFieldHost (hostLittleEndian : Bool) (buf : List Nat) (i : Nat) : Nat :=
  if hostLittleEndian then
    swap32 (leU32of (buf.getD (4 * i) 0) (buf.getD (4 * i + 1) 0)
      (buf.getD (4 * i + 2) 0) (buf.getD (4 * i + 3) 0))
  else
    beU32of (buf.getD (4 * i) 0) (buf.getD (4 * i + 1) 0)
      (buf.getD (4 * i + 2) 0) (buf.getD (4 * i + 3) 0)

/-- Fields 21 to 24 of a sound-header body, the opaque identifier the
decoder checks against known values. -/
def sndhMagicFields (buf : List Nat) : Nat × Nat × Nat × Nat :=
  (sndhField buf 21, sndhField buf 22, sndhField buf 23, sndhField buf 24)

/-- The full known identifier 4-tuple seen in the game files. -/
def knownMagic : Nat × Nat × Nat × Nat :=
  (0x6a528ef2, 0x081011d0, 0xb28a0005, 0x02e85810)

/-- First word of the identifier a freshly created Director 8.5 file uses;
the source compares only this single field for the second known value. -/
def directorMagicHead : Nat := 0x6a5293a2

/-- Emits one warning when the stated check fails, nothing when it holds. -/
def warnUnless (ok : Prop) [Decidable ok] (w : SndhWarning) : List SndhWarning :=
  if ok then [] else [w]

/-- Pure decode of one sound-header body: warnings in print order and the
terminal outcome, after do_translate_sndh of the source with the
filesystem write factored out. -/
def sndhDecode (buf : List Nat) : SndhResult :=
  if buf.length = 100 then
    let f := fun i => sndhField buf i
    let warnings :=
      warnUnless (sndhMagicFields buf = knownMagic ∨ f 21 = directorMagicHead)
        SndhWarning.badMagic ++
      warnUnless (f 0 = 0 ∧ f 2 = 0 ∧ f 3 = 0 ∧ f 4 = 0 ∧ f 5 = 0 ∧
          f 6 = 0 ∧ f 7 = 0 ∧ f 13 = 0 ∧ f 14 = 0 ∧ f 15 = 0 ∧ f 16 = 0)
        SndhWarning.nonZeroReserved ++
      warnUnless (f 1 = f 8) SndhWarning.byteCountMismatch ++
      warnUnless (f 9 = f 10) SndhWarning.frameCountMismatch ++
      warnUnless (f 12 = f 11 * f 20 % M32) SndhWarning.bytesPerSecondMismatch ++
      warnUnless (f 17 % 8 = 0) SndhWarning.bitDepthNotMultipleOf8 ++
      warnUnless (f 17 / 8 ≤ f 18) SndhWarning.bytesPerSampleTooSmall ++
      warnUnless (f 20 = f 18 * f 19 % M32) SndhWarning.bytesPerFrameMismatch
    let outcome :=
      if f 17 = 8 then SndhOutcome.translated "u8" (f 19) (f 11)
      else if f 17 = 16 then SndhOutcome.translated "s16be" (f 19) (f 11)
      else if f 17 = 24 then SndhOutcome.translated "s24le" (f 19) (f 11)
      else if f 17 = 32 then SndhOutcome.translated "s32le" (f 19) (f 11)
      else SndhOutcome.unsupportedBitDepth
    ⟨warnings, outcome⟩
  else
    ⟨[], SndhOutcome.wrongSize⟩

/-- Errors that abort the whole run, after the String errors of the
source: ioError for read/seek failures, unsupportedFormat for an
unrecognized magic tag, invalidUtf8 for a dump filename whose tag is not
UTF-8, writeError for a failed filesystem write. -/
inductive RiffError where
  | ioError
  | unsupportedFormat
  | invalidUtf8
  | writeError
deriving DecidableEq

/-- The do_translate_sndh entry point: returns the decode result together
with whether an output file was written; the only error it can raise is a
failed write of the descriptor file, which only happens once a descriptor
exists. -/
def do_translate_sndh (fsOk : Bool) (buf : List Nat) :
    Except RiffError (SndhResult × Bool) :=
  let r := sndhDecode buf
  match r.outcome with
  | SndhOutcome.translated _ _ _ =>
    if fsOk then Except.ok (r, true) else Except.error RiffError.writeError
  | _ => Except.ok (r, false)

/-- The filter configuration built from the command line: HashSets become
lists compared with contains. -/
structure RiffConfig where
  quietFourccs : List (List Nat)
  dumpFourccs : List (List Nat)
  dumpIndices : List Nat
  translateSndh : Bool

/-- Narration suppression test of the source. -/
def chunkQuiet (cfg : RiffConfig) (tag : List Nat) : Bool :=
  cfg.quietFourccs.contains tag

/-- Dump decision of the source: by type tag or by ordinal index. -/
def chunkDump (cfg : RiffConfig) (tag : List Nat) (index : Nat) : Bool :=
  cfg.dumpFourccs.contains tag || cfg.dumpIndices.contains index

/-- Translate decision of the source: enabled and the tag is sndH. -/
def chunkTranslate (cfg : RiffConfig) (tag : List Nat) : Bool :=
  cfg.translateSndh && tag == sndH

/-- Everything observable about one walked chunk: the record fields, the
policy decisions, the materialized body when one was read, and the
sound-header decode result when the chunk was translated. -/
structure ChunkEvent where
  index : Nat
  startOffset : Nat
  typeTag : List Nat
  declaredSize : Nat
  seekSize : Nat
  quiet : Bool
  dump : Bool
  translate : Bool
  body : Option (List Nat)
  sndh : Option SndhResult
deriving DecidableEq

/-- Result of one iteration of the chunk loop. -/
inductive StepRes where
  | done
  | fail (e : RiffError)
  | next (ev : ChunkEvent) (pos offset index : Nat)
deriving DecidableEq

/-- One iteration of the chunk loop of read_riff_file: stops when the
running offset reaches the declared size, otherwise reads the 8-byte chunk
header, decides the disposition, and either seeks past the padded body or
reads it and feeds it to the dump and translate paths. -/
def walkStep (cfg : RiffConfig) (fsOk : Bool) (file : List Nat)
    (littleEndian : Bool) (fileSize pos offset index : Nat) : StepRes :=
  if offset < fileSize then
    match readBytes file pos 4 with
    | none => StepRes.fail RiffError.ioError
    | some rawTag =>
      let tag := if littleEndian then rawTag.reverse else rawTag
      match readBytes file (pos + 4) 4 with
      | none => StepRes.fail RiffError.ioError
      | some sizeBytes =>
        let chunkSize := readU32val littleEndian sizeBytes
        let dump := chunkDump cfg tag index
        let translate := chunkTranslate cfg tag
        let seekSize := paddedSize chunkSize
        if !dump && !translate then
          StepRes.next
            ⟨index, offset, tag, chunkSize, seekSize, chunkQuiet cfg tag,
              dump, translate, none, none⟩
            (pos + 8 + seekSize) (((offset + 8) % M32 + seekSize) % M32)
            (index + 1)
        else
          match readBytes file (pos + 8) seekSize with
          | none => StepRes.fail RiffError.ioError
          | some buffer =>
            if dump && !isValidUtf8 tag then
              StepRes.fail RiffError.invalidUtf8
            else if dump && !fsOk then
              StepRes.fail RiffError.writeError
            else if translate then
              match do_translate_sndh fsOk buffer with
              | Except.error e => StepRes.fail e
              | Except.ok (r, _) =>
                StepRes.next
                  ⟨index, offset, tag, chunkSize, seekSize, chunkQuiet cfg tag,
                    dump, translate, some buffer, some r⟩
                  (pos + 8 + seekSize) (((offset + 8) % M32 + seekSize) % M32)
                  (index + 1)
            else
              StepRes.next
                ⟨index, offset, tag, chunkSize, seekSize, chunkQuiet cfg tag,
                  dump, translate, some buffer, none⟩
                (pos + 8 + seekSize) (((offset + 8) % M32 + seekSize) % M32)
                (index + 1)
  else
    StepRes.done

/-- The chunk loop, with fuel making termination explicit: none means the
fuel ran out, some carries the outcome of the run, and a successful run
carries the chunk events and the final running offset. -/
def walkLoop (cfg : RiffConfig) (fsOk : Bool) (file : List Nat)
    (littleEndian : Bool) (fileSize : Nat) :
    Nat → Nat → Nat → Nat → Option (Except RiffError (List ChunkEvent × Nat))
  | 0, _, _, _ => none
  | fuel + 1, pos, offset, index =>
    match walkStep cfg fsOk file littleEndian fileSize pos offset index with
    | StepRes.done => some (Except.ok ([], offset))
    | StepRes.fail e => some (Except.error e)
    | StepRes.next ev pos2 offset2 index2 =>
      match walkLoop cfg fsOk file littleEndian fileSize fuel pos2 offset2 index2 with
      | none => none
      | some (Except.error e) => some (Except.error e)
      | some (Except.ok (evs, fin)) => some (Except.ok (ev :: evs, fin))

/-- Everything a successful run of read_riff_file determines. -/
structure RiffSuccess where
  littleEndian : Bool
  fileSize : Nat
  fileKind : List Nat
  chunks : List ChunkEvent
  finalOffset : Nat
deriving DecidableEq

/-- Continuation of read_riff_file once the magic tag fixed the
endianness: read the declared size and the kind tag, then run the chunk
loop from offset 12. -/
def readRiffWithEndian (cfg : RiffConfig) (fsOk : Bool) (file : List Nat)
    (fuel : Nat) (littleEndian : Bool) :
    Option (Except RiffError RiffSuccess) :=
  match readBytes file 4 4 with
  | none => some (Except.error RiffError.ioError)
  | some sizeBytes =>
    let fileSize := readU32val littleEndian sizeBytes
    match readBytes file 8 4 with
    | none => some (Except.error RiffError.ioError)
    | some rawKind =>
      let fileKind := if littleEndian then rawKind.reverse else rawKind
      match walkLoop cfg fsOk file littleEndian fileSize fuel 12 12 0 with
      | none => none
      | some (Except.error e) => some (Except.error e)
      | some (Except.ok (evs, fin)) =>
        some (Except.ok ⟨littleEndian, fileSize, fileKind, evs, fin⟩)

/-- Top-level walker: read the magic tag without byteswap, fix the
endianness from it or fail with unsupportedFormat, then read the header
and iterate the chunks. -/
def read_riff_file (cfg : RiffConfig) (fsOk : Bool) (file : List Nat)
    (fuel : Nat) : Option (Except RiffError RiffSuccess) :=
  match readBytes file 0 4 with
  | none => some (Except.error RiffError.ioError)
  | some fileType =>
    if fileType = XFIR then readRiffWithEndian cfg fsOk file fuel true
    else if fileType = RIFX then readRiffWithEndian cfg fsOk file fuel false
    else some (Except.error RiffError.unsupportedFormat)

/-- Total walk cost of a chunk list: 8 header bytes plus the padded body
for each chunk. -/
def chunkCost : List ChunkEvent → Nat
  | [] => 0
  | ev :: rest => 8 + ev.seekSize + chunkCost rest

/-- Per-chunk facts the walker guarantees for every yielded event: the
policy decisions are exactly the contains tests of the source, the seek
extent is the padded size, a body is materialized exactly when dump or
translate fired, a materialized body has exactly the padded length, and a
translated chunk carries the decode of the one body that was read. -/
def ChunkFacts (cfg : RiffConfig) (ev : ChunkEvent) : Prop :=
  ev.dump = (cfg.dumpFourccs.contains ev.typeTag ||
    cfg.dumpIndices.contains ev.index) ∧
  ev.translate = (cfg.translateSndh && (ev.typeTag == sndH)) ∧
  ev.seekSize = paddedSize ev.declaredSize ∧
  (ev.body.isSome ↔ (ev.dump || ev.translate) = true) ∧
  (∀ b, ev.body = some b → b.length = ev.seekSize) ∧
  (ev.translate = true → ∃ b, ev.body = some b ∧ ev.sndh = some (sndhDecode b)) ∧
  (ev.translate = false → ev.sndh = none)

theorem readBytes_length {file : List Nat} {pos n : Nat} {b : List Nat}
    (h : readBytes file pos n = some b) : b.length = n := by
  unfold readBytes at h
  split at h
  · next hle =>
    injection h with h
    subst h
    simp only [List.length_take, List.length_drop]
    omega
  · exact absurd h (by simp)

theorem getD_lt_of_forall {buf : List Nat} (h : ∀ b ∈ buf, b < 256) (j : Nat) :
    buf.getD j 0 < 256 := by
  by_cases hj : j < buf.length
  · rw [List.getD_eq_getElem _ _ hj]
    exact h _ (List.getElem_mem _)
  · rw [List.getD_eq_default _ _ (Nat.le_of_not_lt hj)]
    omega

theorem swap32_leU32of (b0 b1 b2 b3 : Nat) (h0 : b0 < 256) (h1 : b1 < 256)
    (h2 : b2 < 256) (h3 : b3 < 256) :
    swap32 (leU32of b0 b1 b2 b3) = beU32of b0 b1 b2 b3 := by
  unfold swap32 leU32of beU32of
  have h : ((b3 * 256 + b2) * 256 + b1) * 256 + b0 =
      b0 + 256 * b1 + 65536 * b2 + 16777216 * b3 := by ring
  rw [h]
  have m0 : (b0 + 256 * b1 + 65536 * b2 + 16777216 * b3) % 256 = b0 := by omega
  have m1 : (b0 + 256 * b1 + 65536 * b2 + 16777216 * b3) / 256 % 256 = b1 := by
    omega
  have m2 : (b0 + 256 * b1 + 65536 * b2 + 16777216 * b3) / 65536 % 256 = b2 := by
    omega
  have m3 : (b0 + 256 * b1 + 65536 * b2 + 16777216 * b3) / 16777216 % 256 = b3 := by
    omega
  rw [m0, m1, m2, m3]
  ring

theorem mem_warnUnless {c : Prop} [Decidable c] {w w' : SndhWarning} :
    w' ∈ warnUnless c w ↔ ¬c ∧ w' = w := by
  unfold warnUnless
  split
  · next hc => simp [hc]
  · next hc => simp [hc]

/-- Consistent synthetic sound-header body: 40 bytes, 10 frames,
22050 Hz, 16-bit stereo, the known identifier tuple in fields 21 to 24. -/
def sndhBufA : List Nat :=
  [0, 0, 0, 0, 0, 0, 0, 40,
   0, 0, 0, 0, 0, 0, 0, 0, 0, 0, 0, 0, 0, 0, 0, 0, 0, 0, 0, 0, 0, 0, 0, 0,
   0, 0, 0, 40, 0, 0, 0, 10, 0, 0, 0, 10, 0, 0, 86, 34, 0, 1, 88, 136,
   0, 0, 0, 0, 0, 0, 0, 0, 0, 0, 0, 0, 0, 0, 0, 0,
   0, 0, 0, 16, 0, 0, 0, 2, 0, 0, 0, 2, 0, 0, 0, 4,
   106, 82, 142, 242, 8, 16, 17, 208, 178, 138, 0, 5, 2, 232, 88, 16]

/-- The same body with the second byte count (field 8) changed to 41, so
that the two redundant byte counts disagree. -/
def sndhBufB : List Nat := sndhBufA.set 35 41

/-- A 100-byte body whose identifier starts with the Director 8.5 head
word but continues with arbitrary values. -/
def mixedMagicBuf (x : Nat) : List Nat :=
  List.replicate 84 0 ++ [106, 82, 147, 162, 0, 0, 0, x] ++ List.replicate 8 0

/-- C3: the padded size the walker advances by is always even; an odd
declared size is padded to declared size plus one and an even one is kept,
in wrapping 32-bit arithmetic. -/
theorem claim3_padding (n : Nat) (h : n < M32) :
    paddedSize n % 2 = 0 ∧
    (n % 2 = 1 → paddedSize n = (n + 1) % M32) ∧
    (n % 2 = 0 → paddedSize n = n) := by
  unfold paddedSize M32 at *
  omega

/-- Witness for C3 at declared sizes 99 and 100. -/
theorem claim3_padding_witness :
    paddedSize 99 % 2 = 0 ∧ paddedSize 99 = (99 + 1) % M32 ∧ paddedSize 100 = 100 :=
  ⟨(claim3_padding 99 (by decide)).1,
   (claim3_padding 99 (by decide)).2.1 (by decide),
   (claim3_padding 100 (by decide)).2.2 (by decide)⟩

/-- C9: the consistent synthetic body decodes to the s16be descriptor with
no warnings; making the two byte counts disagree yields the identical
descriptor and exactly the byte-count warning. -/
theorem claim9_roundtrip :
    sndhDecode sndhBufA = ⟨[], SndhOutcome.translated "s16be" 2 22050⟩ ∧
    sndhDecode sndhBufB =
      ⟨[SndhWarning.byteCountMismatch], SndhOutcome.translated "s16be" 2 22050⟩ :=
  ⟨by decide, by decide⟩

/-- C5: the decoder maps bit depth 8, 16, 24, 32 to the four sample
formats with the channel count and sample rate fields, rejects every other
bit depth with unsupportedBitDepth producing no descriptor, and that
rejection returns success to the walker. -/
theorem claim5_bit_depth_map (buf : List Nat) (h : buf.length = 100) :
    (sndhField buf 17 = 8 → (sndhDecode buf).outcome =
      SndhOutcome.translated "u8" (sndhField buf 19) (sndhField buf 11)) ∧
    (sndhField buf 17 = 16 → (sndhDecode buf).outcome =
      SndhOutcome.translated "s16be" (sndhField buf 19) (sndhField buf 11)) ∧
    (sndhField buf 17 = 24 → (sndhDecode buf).outcome =
      SndhOutcome.translated "s24le" (sndhField buf 19) (sndhField buf 11)) ∧
    (sndhField buf 17 = 32 → (sndhDecode buf).outcome =
      SndhOutcome.translated "s32le" (sndhField buf 19) (sndhField buf 11)) ∧
    (sndhField buf 17 ≠ 8 → sndhField buf 17 ≠ 16 → sndhField buf 17 ≠ 24 →
      sndhField buf 17 ≠ 32 →
      (sndhDecode buf).outcome = SndhOutcome.unsupportedBitDepth) ∧
    (∀ fsOk, (sndhDecode buf).outcome = SndhOutcome.unsupportedBitDepth →
      do_translate_sndh fsOk buf = Except.ok (sndhDecode buf, false)) := by
  refine ⟨fun e => ?_, fun e => ?_, fun e => ?_, fun e => ?_,
    fun h8 h16 h24 h32 => ?_, fun fsOk ho => ?_⟩
  · simp [sndhDecode, h, e]
  · simp [sndhDecode, h, e]
  · simp [sndhDecode, h, e]
  · simp [sndhDecode, h, e]
  · simp [sndhDecode, h, h8, h16, h24, h32]
  · simp only [do_translate_sndh]
    rw [ho]

/-- Witness for C5 on the synthetic 16-bit body. -/
theorem claim5_witness :
    (sndhDecode sndhBufA).outcome =
      SndhOutcome.translated "s16be" (sndhField sndhBufA 19) (sndhField sndhBufA 11) :=
  (claim5_bit_depth_map sndhBufA (by decide)).2.1 (by decide)

/-- C6: the field extraction of the source, a native unaligned u32 load
followed by u32::from_be, equals the plain big-endian interpretation of
the four bytes on both host endiannesses; the decoder is a function of the
body bytes alone and takes no container endianness, so the container flag
cannot influence any decoder result. -/
theorem claim6_big_endian_fields (hostLittleEndian : Bool) (buf : List Nat)
    (i : Nat) (h : ∀ b ∈ buf, b < 256) :
    sndhFieldHost hostLittleEndian buf i = sndhField buf i ∧
    sndhField buf i =
      ((buf.getD (4 * i) 0 * 256 + buf.getD (4 * i + 1) 0) * 256 +
        buf.getD (4 * i + 2) 0) * 256 + buf.getD (4 * i + 3) 0 := by
  constructor
  · cases hostLittleEndian with
    | false => rfl
    | true =>
      have h0 := getD_lt_of_forall h (4 * i)
      have h1 := getD_lt_of_forall h (4 * i + 1)
      have h2 := getD_lt_of_forall h (4 * i + 2)
      have h3 := getD_lt_of_forall h (4 * i + 3)
      show swap32 (leU32of _ _ _ _) = _
      rw [swap32_leU32of _ _ _ _ h0 h1 h2 h3]
      rfl
  · rfl

/-- Witness for C6 on the synthetic body, little-endian host, field 17. -/
theorem claim6_witness :
    sndhFieldHost true sndhBufA 17 = sndhField sndhBufA 17 ∧
    sndhField sndhBufA 17 =
      ((sndhBufA.getD (4 * 17) 0 * 256 + sndhBufA.getD (4 * 17 + 1) 0) * 256 +
        sndhBufA.getD (4 * 17 + 2) 0) * 256 + sndhBufA.getD (4 * 17 + 3) 0 :=
  claim6_big_endian_fields true sndhBufA 17 (by decide)

/-- C10: a wrong-size or unsupported-bit-depth body returns success to the
walker with no output file written; the only error the decoder can raise
is a failed write, which requires that a descriptor was produced. -/
theorem claim10_error_propagation (fsOk : Bool) (buf : List Nat) :
    (buf.length ≠ 100 →
      do_translate_sndh fsOk buf = Except.ok (⟨[], SndhOutcome.wrongSize⟩, false)) ∧
    ((sndhDecode buf).outcome = SndhOutcome.unsupportedBitDepth →
      do_translate_sndh fsOk buf = Except.ok (sndhDecode buf, false)) ∧
    (∀ e, do_translate_sndh fsOk buf = Except.error e →
      e = RiffError.writeError ∧ fsOk = false ∧
        ∃ fmt ch rate, (sndhDecode buf).outcome = SndhOutcome.translated fmt ch rate) := by
  refine ⟨fun hne => ?_, fun ho => ?_, fun e he => ?_⟩
  · have hdec : sndhDecode buf = ⟨[], SndhOutcome.wrongSize⟩ := by
      simp [sndhDecode, hne]
    simp only [do_translate_sndh, hdec]
  · simp only [do_translate_sndh]
    rw [ho]
  · simp only [do_translate_sndh] at he
    rcases ho : (sndhDecode buf).outcome with _ | _ | ⟨fmt, ch, rate⟩ <;> rw [ho] at he
    · exact absurd he (by simp)
    · exact absurd he (by simp)
    · cases fsOk with
      | true => exact absurd he (by simp)
      | false =>
        simp only [Bool.false_eq_true, if_false] at he
        injection he with he
        exact ⟨he.symm, rfl, fmt, ch, rate, rfl⟩

/-- Witness for C10: a short body is ignored with success, and a good body
with a failing filesystem write aborts with the write error. -/
theorem claim10_witness :
    do_translate_sndh true [1, 2] = Except.ok (⟨[], SndhOutcome.wrongSize⟩, false) ∧
    (RiffError.writeError = RiffError.writeError ∧ false = false ∧
      ∃ fmt ch rate, (sndhDecode sndhBufA).outcome = SndhOutcome.translated fmt ch rate) :=
  ⟨(claim10_error_propagation true [1, 2]).1 (by decide),
   (claim10_error_propagation false sndhBufA).2.2 RiffError.writeError (by rfl)⟩

/-- C2 corrected: a magic-number warning is emitted iff fields 21 to 24
differ from the known 4-tuple AND field 21 alone differs from the Director
8.5 head word (the source checks only field 21 for the second value), and
the warning never influences the terminal outcome, which depends only on
the bit depth once the length is right. -/
theorem claim2_magic_warning (buf : List Nat) (h : buf.length = 100) :
    (SndhWarning.badMagic ∈ (sndhDecode buf).warnings ↔
      (sndhMagicFields buf ≠ knownMagic ∧ sndhField buf 21 ≠ directorMagicHead)) ∧
    ((sndhDecode buf).outcome = SndhOutcome.unsupportedBitDepth ↔
      (sndhField buf 17 ≠ 8 ∧ sndhField buf 17 ≠ 16 ∧ sndhField buf 17 ≠ 24 ∧
        sndhField buf 17 ≠ 32)) := by
  constructor
  · simp [sndhDecode, h, mem_warnUnless, not_or]
  · by_cases h8 : sndhField buf 17 = 8 <;>
      by_cases h16 : sndhField buf 17 = 16 <;>
      by_cases h24 : sndhField buf 17 = 24 <;>
      by_cases h32 : sndhField buf 17 = 32 <;>
      simp [sndhDecode, h, h8, h16, h24, h32]

/-- Witness for the corrected C2 on the synthetic consistent body. -/
theorem claim2_magic_warning_witness :
    (SndhWarning.badMagic ∈ (sndhDecode sndhBufA).warnings ↔
      (sndhMagicFields sndhBufA ≠ knownMagic ∧
        sndhField sndhBufA 21 ≠ directorMagicHead)) ∧
    ((sndhDecode sndhBufA).outcome = SndhOutcome.unsupportedBitDepth ↔
      (sndhField sndhBufA 17 ≠ 8 ∧ sndhField sndhBufA 17 ≠ 16 ∧
        sndhField sndhBufA 17 ≠ 24 ∧ sndhField sndhBufA 17 ≠ 32)) :=
  claim2_magic_warning sndhBufA (by decide)

/-- C2 as stated is false: no pair of constant 4-tuples makes the warning
fire exactly outside that pair, because every 4-tuple starting with the
Director head word is accepted, giving more than two accepted tuples. -/
theorem claim2_counterexample :
    ¬∃ t1 t2 : Nat × Nat × Nat × Nat,
      ∀ buf : List Nat, buf.length = 100 →
        (SndhWarning.badMagic ∈ (sndhDecode buf).warnings ↔
          (sndhMagicFields buf ≠ t1 ∧ sndhMagicFields buf ≠ t2)) := by
  rintro ⟨t1, t2, h⟩
  have h0 := h (mixedMagicBuf 0) (by decide)
  have h1 := h (mixedMagicBuf 1) (by decide)
  have h2 := h (mixedMagicBuf 2) (by decide)
  have m0 : sndhMagicFields (mixedMagicBuf 0) = t1 ∨
      sndhMagicFields (mixedMagicBuf 0) = t2 := by
    by_contra hc
    push_neg at hc
    exact absurd (h0.mpr hc) (by decide)
  have m1 : sndhMagicFields (mixedMagicBuf 1) = t1 ∨
      sndhMagicFields (mixedMagicBuf 1) = t2 := by
    by_contra hc
    push_neg at hc
    exact absurd (h1.mpr hc) (by decide)
  have m2 : sndhMagicFields (mixedMagicBuf 2) = t1 ∨
      sndhMagicFields (mixedMagicBuf 2) = t2 := by
    by_contra hc
    push_neg at hc
    exact absurd (h2.mpr hc) (by decide)
  have d01 : sndhMagicFields (mixedMagicBuf 0) ≠ sndhMagicFields (mixedMagicBuf 1) := by
    decide
  have d02 : sndhMagicFields (mixedMagicBuf 0) ≠ sndhMagicFields (mixedMagicBuf 2) := by
    decide
  have d12 : sndhMagicFields (mixedMagicBuf 1) ≠ sndhMagicFields (mixedMagicBuf 2) := by
    decide
  rcases m0 with e0 | e0 <;> rcases m1 with e1 | e1 <;> rcases m2 with e2 | e2 <;>
    first
    | exact d01 (e0.trans e1.symm)
    | exact d02 (e0.trans e2.symm)
    | exact d12 (e1.trans e2.symm)

theorem sndhDecode_wrongSize_iff (b : List Nat) :
    (sndhDecode b).outcome = SndhOutcome.wrongSize ↔ b.length ≠ 100 := by
  by_cases hb : b.length = 100
  · by_cases h8 : sndhField b 17 = 8 <;>
      by_cases h16 : sndhField b 17 = 16 <;>
      by_cases h24 : sndhField b 17 = 24 <;>
      by_cases h32 : sndhField b 17 = 32 <;>
      simp [sndhDecode, hb, h8, h16, h24, h32]
  · simp [sndhDecode, hb]

theorem do_translate_sndh_ok {fsOk : Bool} {buf : List Nat} {r : SndhResult}
    {w : Bool} (h : do_translate_sndh fsOk buf = Except.ok (r, w)) :
    r = sndhDecode buf := by
  simp only [do_translate_sndh] at h
  split at h
  · split at h
    · simp only [Except.ok.injEq, Prod.mk.injEq] at h
      exact h.1.symm
    · exact absurd h (by simp)
  · simp only [Except.ok.injEq, Prod.mk.injEq] at h
    exact h.1.symm

theorem walkStep_done {cfg : RiffConfig} {fsOk : Bool} {file : List Nat}
    {littleEndian : Bool} {fileSize pos offset index : Nat}
    (h : walkStep cfg fsOk file littleEndian fileSize pos offset index =
      StepRes.done) : fileSize ≤ offset := by
  by_cases hlt : offset < fileSize
  · exfalso
    simp only [walkStep, if_pos hlt] at h
    repeat' first
      | exact StepRes.noConfusion h
      | split at h
  · omega

theorem walkStep_next {cfg : RiffConfig} {fsOk : Bool} {file : List Nat}
    {littleEndian : Bool} {fileSize pos offset index : Nat} {ev : ChunkEvent}
    {pos2 offset2 index2 : Nat}
    (h : walkStep cfg fsOk file littleEndian fileSize pos offset index =
      StepRes.next ev pos2 offset2 index2) :
    ChunkFacts cfg ev ∧ ev.startOffset = offset ∧ ev.index = index ∧
      index2 = index + 1 ∧
      offset2 = ((offset + 8) % M32 + ev.seekSize) % M32 := by
  simp only [walkStep] at h
  split at h
  case isFalse => exact StepRes.noConfusion h
  split at h
  · exact StepRes.noConfusion h
  rename_i rawTag hraw
  split at h
  · exact StepRes.noConfusion h
  rename_i sizeBytes hsize
  generalize htag : (if littleEndian then rawTag.reverse else rawTag) = tag at h
  generalize hcs : readU32val littleEndian sizeBytes = chunkSize at h
  split at h
  case isTrue hskip =>
    simp only [Bool.and_eq_true, Bool.not_eq_true'] at hskip
    injection h with hev hpos hoff hidx
    subst hev hpos hoff hidx
    refine ⟨⟨rfl, rfl, rfl, ?_, ?_, ?_, ?_⟩, rfl, rfl, rfl, rfl⟩
    · simp [hskip.1, hskip.2]
    · intro b hb
      exact Option.noConfusion hb
    · intro ht
      rw [hskip.2] at ht
      exact Bool.noConfusion ht
    · intro _
      rfl
  case isFalse hmat =>
    rw [Bool.and_eq_true, Bool.not_eq_true', Bool.not_eq_true', not_and_or] at hmat
    split at h
    · exact StepRes.noConfusion h
    rename_i buffer hbuf
    split at h
    · exact StepRes.noConfusion h
    rename_i hutf
    split at h
    · exact StepRes.noConfusion h
    rename_i hwrt
    split at h
    case isTrue htr =>
      split at h
      · exact StepRes.noConfusion h
      rename_i r w hdt
      injection h with hev hpos hoff hidx
      subst hev hpos hoff hidx
      refine ⟨⟨rfl, rfl, rfl, ?_, ?_, ?_, ?_⟩, rfl, rfl, rfl, rfl⟩
      · simp [htr]
      · intro b hb
        injection hb with hb
        subst hb
        exact readBytes_length hbuf
      · intro _
        exact ⟨buffer, rfl, by rw [do_translate_sndh_ok hdt]⟩
      · intro ht'
        rw [htr] at ht'
        exact Bool.noConfusion ht'
    case isFalse hntr =>
      injection h with hev hpos hoff hidx
      subst hev hpos hoff hidx
      have htr' : chunkTranslate cfg tag = false := by
        revert hntr
        cases chunkTranslate cfg tag <;> simp
      refine ⟨⟨rfl, rfl, rfl, ?_, ?_, ?_, ?_⟩, rfl, rfl, rfl, rfl⟩
      · rcases hmat with hd | ht
        · simp [hd]
        · rw [htr'] at ht
          exact absurd rfl ht
      · intro b hb
        injection hb with hb
        subst hb
        exact readBytes_length hbuf
      · intro ht
        rw [htr'] at ht
        exact Bool.noConfusion ht
      · intro _
        rfl

theorem walkLoop_ok_cases {cfg : RiffConfig} {fsOk : Bool} {file : List Nat}
    {littleEndian : Bool} {fileSize fuel pos offset index : Nat}
    {evs : List ChunkEvent} {fin : Nat}
    (h : walkLoop cfg fsOk file littleEndian fileSize (fuel + 1) pos offset index =
      some (Except.ok (evs, fin))) :
    (walkStep cfg fsOk file littleEndian fileSize pos offset index = StepRes.done ∧
      evs = [] ∧ fin = offset) ∨
    ∃ ev pos2 offset2 index2 evs2,
      walkStep cfg fsOk file littleEndian fileSize pos offset index =
        StepRes.next ev pos2 offset2 index2 ∧
      evs = ev :: evs2 ∧
      walkLoop cfg fsOk file littleEndian fileSize fuel pos2 offset2 index2 =
        some (Except.ok (evs2, fin)) := by
  rw [walkLoop] at h
  split at h
  case _ hs =>
    simp only [Option.some.injEq, Except.ok.injEq, Prod.mk.injEq] at h
    exact Or.inl ⟨hs, h.1.symm, h.2.symm⟩
  case _ e hs =>
    exact absurd h (by simp)
  case _ ev pos2 offset2 index2 hs =>
    split at h
    case _ hr => exact absurd h (by simp)
    case _ e hr => exact absurd h (by simp)
    case _ evs2 fin2 hr =>
      simp only [Option.some.injEq, Except.ok.injEq, Prod.mk.injEq] at h
      refine Or.inr ⟨ev, pos2, offset2, index2, evs2, hs, h.1.symm, ?_⟩
      rw [hr, h.2]

theorem walkLoop_facts (cfg : RiffConfig) (fsOk : Bool) (file : List Nat)
    (littleEndian : Bool) (fileSize : Nat) :
    ∀ (fuel pos offset index : Nat) (evs : List ChunkEvent) (fin : Nat),
      walkLoop cfg fsOk file littleEndian fileSize fuel pos offset index =
        some (Except.ok (evs, fin)) →
      ∀ ev ∈ evs, ChunkFacts cfg ev := by
  intro fuel
  induction fuel with
  | zero =>
    intro pos offset index evs fin h
    exact absurd h (by rw [walkLoop]; simp)
  | succ n ih =>
    intro pos offset index evs fin h ev hev
    rcases walkLoop_ok_cases h with ⟨_, rfl, _⟩ |
      ⟨ev2, pos2, offset2, index2, evs2, hs, rfl, hrec⟩
    · cases hev
    · rcases List.mem_cons.mp hev with rfl | hmem
      · exact (walkStep_next hs).1
      · exact ih pos2 offset2 index2 evs2 fin hrec ev hmem

theorem walkLoop_final_offset (cfg : RiffConfig) (fsOk : Bool) (file : List Nat)
    (littleEndian : Bool) (fileSize : Nat) :
    ∀ (fuel pos offset index : Nat) (evs : List ChunkEvent) (fin : Nat),
      walkLoop cfg fsOk file littleEndian fileSize fuel pos offset index =
        some (Except.ok (evs, fin)) →
      offset < M32 →
      fileSize ≤ fin ∧ fin = (offset + chunkCost evs) % M32 := by
  intro fuel
  induction fuel with
  | zero =>
    intro pos offset index evs fin h
    exact absurd h (by rw [walkLoop]; simp)
  | succ n ih =>
    intro pos offset index evs fin h hoff
    rcases walkLoop_ok_cases h with ⟨hs, rfl, rfl⟩ |
      ⟨ev2, pos2, offset2, index2, evs2, hs, rfl, hrec⟩
    · refine ⟨walkStep_done hs, ?_⟩
      simp only [chunkCost]
      unfold M32 at *
      omega
    · have hstep := walkStep_next hs
      have hoff2 : offset2 = ((offset + 8) % M32 + ev2.seekSize) % M32 :=
        hstep.2.2.2.2
      have hoff2lt : offset2 < M32 := by
        rw [hoff2]
        unfold M32
        omega
      have hrec2 := ih pos2 offset2 index2 evs2 fin hrec hoff2lt
      refine ⟨hrec2.1, ?_⟩
      have := hrec2.2
      simp only [chunkCost]
      unfold M32 at *
      omega

theorem readRiffWithEndian_ok {cfg : RiffConfig} {fsOk : Bool} {file : List Nat}
    {fuel : Nat} {le : Bool} {s : RiffSuccess}
    (h : readRiffWithEndian cfg fsOk file fuel le = some (Except.ok s)) :
    s.littleEndian = le ∧
    walkLoop cfg fsOk file le s.fileSize fuel 12 12 0 =
      some (Except.ok (s.chunks, s.finalOffset)) := by
  simp only [readRiffWithEndian] at h
  split at h
  · exact absurd h (by simp)
  rename_i sizeBytes hsz
  split at h
  · exact absurd h (by simp)
  rename_i rawKind hkind
  split at h
  case _ hw => exact absurd h (by simp)
  case _ e hw => exact absurd h (by simp)
  case _ p evs fin hw =>
    simp only [Option.some.injEq, Except.ok.injEq] at h
    subst h
    exact ⟨rfl, hw⟩

theorem read_riff_file_ok {cfg : RiffConfig} {fsOk : Bool} {file : List Nat}
    {fuel : Nat} {s : RiffSuccess}
    (h : read_riff_file cfg fsOk file fuel = some (Except.ok s)) :
    walkLoop cfg fsOk file s.littleEndian s.fileSize fuel 12 12 0 =
      some (Except.ok (s.chunks, s.finalOffset)) := by
  simp only [read_riff_file] at h
  split at h
  · exact absurd h (by simp)
  rename_i fileType hft
  split at h
  · have hw := readRiffWithEndian_ok h
    rw [hw.1]
    exact hw.2
  split at h
  · have hw := readRiffWithEndian_ok h
    rw [hw.1]
    exact hw.2
  · exact absurd h (by simp)

theorem read_riff_file_facts {cfg : RiffConfig} {fsOk : Bool} {file : List Nat}
    {fuel : Nat} {s : RiffSuccess}
    (h : read_riff_file cfg fsOk file fuel = some (Except.ok s)) :
    ∀ ev ∈ s.chunks, ChunkFacts cfg ev :=
  walkLoop_facts cfg fsOk file s.littleEndian s.fileSize fuel 12 12 0
    s.chunks s.finalOffset (read_riff_file_ok h)

/-- Empty filter configuration: no quiet, dump or translate options. -/
def cfg0 : RiffConfig := ⟨[], [], [], false⟩

/-- A little-endian file whose declared size 13 is not on a chunk
boundary: one zero-size chunk moves the offset from 12 to 20, strictly
past the declared size, yet every read succeeds. -/
def file1 : List Nat :=
  [88, 70, 73, 82, 13, 0, 0, 0, 84, 83, 69, 84, 97, 97, 97, 97, 0, 0, 0, 0]

/-- The single chunk event of file1. -/
def ev1 : ChunkEvent :=
  ⟨0, 12, [97, 97, 97, 97], 0, 0, false, false, false, none, none⟩

/-- The successful walk of file1: final offset 20, declared size 13. -/
def s1 : RiffSuccess := ⟨true, 13, [84, 69, 83, 84], [ev1], 20⟩


/-- A big-endian file with one sndH chunk declared as 99 bytes followed by
a 100-byte padded body of zeros; total declared size 120. -/
def file3 : List Nat :=
  [82, 73, 70, 88, 0, 0, 0, 120, 84, 69, 83, 84,
   115, 110, 100, 72, 0, 0, 0, 99] ++ List.replicate 100 0

/-- Translate-only configuration. -/
def cfg3 : RiffConfig := ⟨[], [], [], true⟩

/-- Dump-sndH-and-translate configuration. -/
def cfg2 : RiffConfig := ⟨[], [sndH], [], true⟩

/-- The single chunk event of file3 under cfg3. -/
def ev3 : ChunkEvent :=
  ⟨0, 12, sndH, 99, 100, false, false, true, some (List.replicate 100 0),
    some ⟨[SndhWarning.badMagic], SndhOutcome.unsupportedBitDepth⟩⟩

/-- The successful walk of file3 under cfg3. -/
def s3 : RiffSuccess := ⟨false, 120, [84, 69, 83, 84], [ev3], 120⟩

/-- The single chunk event of file3 under cfg2 (dumped and translated). -/
def ev2 : ChunkEvent :=
  ⟨0, 12, sndH, 99, 100, false, true, true, some (List.replicate 100 0),
    some ⟨[SndhWarning.badMagic], SndhOutcome.unsupportedBitDepth⟩⟩

/-- The successful walk of file3 under cfg2. -/
def s2 : RiffSuccess := ⟨false, 120, [84, 69, 83, 84], [ev2], 120⟩

/-- C1 counterexample: the claim that a successful walk forces the final
offset to equal the declared size is false; file1 walks to offset 20 with
declared size 13 and still reports success, because the loop only tests
offset < declared size. -/
theorem claim1_counterexample :
    ¬(∀ (cfg : RiffConfig) (fsOk : Bool) (file : List Nat) (fuel : Nat)
        (s : RiffSuccess),
        read_riff_file cfg fsOk file fuel = some (Except.ok s) →
        s.finalOffset = s.fileSize) :=
  fun hclaim => absurd (hclaim cfg0 true file1 3 s1 rfl) (by decide)

/-- C1 amended: on every successful walk the final offset is 12 plus the
sum of 8 + padded size over the chunks (mod 2^32) and is at least the
declared size; the walk reports success even when the offset lands
strictly above the declared size, as long as every read succeeds. -/
theorem claim1_final_offset (cfg : RiffConfig) (fsOk : Bool) (file : List Nat)
    (fuel : Nat) (s : RiffSuccess)
    (h : read_riff_file cfg fsOk file fuel = some (Except.ok s)) :
    s.fileSize ≤ s.finalOffset ∧
    s.finalOffset = (12 + chunkCost s.chunks) % M32 :=
  walkLoop_final_offset cfg fsOk file s.littleEndian s.fileSize fuel 12 12 0
    s.chunks s.finalOffset (read_riff_file_ok h) (by decide)

/-- Witness for the amended C1 on the overshooting file1. -/
theorem claim1_witness :
    s1.fileSize ≤ s1.finalOffset ∧
    s1.finalOffset = (12 + chunkCost s1.chunks) % M32 :=
  claim1_final_offset cfg0 true file1 3 s1 rfl

/-- C7: for every walked chunk, dump holds iff the tag is in the dump
types or the index in the dump indices, translate holds iff translation is
enabled and the tag is sndH, a body is materialized iff dump or translate
holds (otherwise the walker only seeks), and a translated chunk carries
the decode of the single body that was read, the same body the dump path
received. -/
theorem claim7_policy (cfg : RiffConfig) (fsOk : Bool) (file : List Nat)
    (fuel : Nat) (s : RiffSuccess)
    (h : read_riff_file cfg fsOk file fuel = some (Except.ok s)) :
    ∀ ev ∈ s.chunks,
      ev.dump = (cfg.dumpFourccs.contains ev.typeTag ||
        cfg.dumpIndices.contains ev.index) ∧
      ev.translate = (cfg.translateSndh && (ev.typeTag == sndH)) ∧
      (ev.body.isSome ↔ (ev.dump || ev.translate) = true) ∧
      (ev.translate = true → ∃ b, ev.body = some b ∧ ev.sndh = some (sndhDecode b)) ∧
      (ev.translate = false → ev.sndh = none) := by
  intro ev hev
  have hf := read_riff_file_facts h ev hev
  exact ⟨hf.1, hf.2.1, hf.2.2.2.1, hf.2.2.2.2.2.1, hf.2.2.2.2.2.2⟩

/-- Witness for C7 on a chunk that is both dumped and translated. -/
theorem claim7_witness :
    ev2.dump = (cfg2.dumpFourccs.contains ev2.typeTag ||
      cfg2.dumpIndices.contains ev2.index) ∧
    ev2.translate = (cfg2.translateSndh && (ev2.typeTag == sndH)) ∧
    (ev2.body.isSome ↔ (ev2.dump || ev2.translate) = true) ∧
    (ev2.translate = true → ∃ b, ev2.body = some b ∧ ev2.sndh = some (sndhDecode b)) ∧
    (ev2.translate = false → ev2.sndh = none) :=
  claim7_policy cfg2 true file3 3 s2 rfl ev2 (by decide)

/-- C4: a chunk declared as 99 bytes is padded to 100; any materialized
body of such a chunk has exactly 100 bytes, so the decoder does not reject
it for its size, and the size rejection fires exactly when the buffer the
decoder receives is not 100 bytes long. -/
theorem claim4_padded_boundary :
    paddedSize 99 = 100 ∧
    (∀ b : List Nat, (sndhDecode b).outcome = SndhOutcome.wrongSize ↔ b.length ≠ 100) ∧
    (∀ (cfg : RiffConfig) (fsOk : Bool) (file : List Nat) (fuel : Nat)
        (s : RiffSuccess),
      read_riff_file cfg fsOk file fuel = some (Except.ok s) →
      ∀ ev ∈ s.chunks, ev.declaredSize = 99 → ev.body.isSome = true →
        ∃ b, ev.body = some b ∧ b.length = 100 ∧
          (sndhDecode b).outcome ≠ SndhOutcome.wrongSize) := by
  refine ⟨by decide, sndhDecode_wrongSize_iff, ?_⟩
  intro cfg fsOk file fuel s h ev hev hds hsome
  have hf := read_riff_file_facts h ev hev
  rcases hb : ev.body with _ | b
  · rw [hb] at hsome
    exact absurd hsome (by simp)
  · have hlen : b.length = ev.seekSize := hf.2.2.2.2.1 b hb
    have hseek : ev.seekSize = 100 := by
      rw [hf.2.2.1, hds]
      decide
    refine ⟨b, rfl, hlen.trans hseek, fun hw => ?_⟩
    exact absurd (hlen.trans hseek) ((sndhDecode_wrongSize_iff b).mp hw)

/-- Witness for C4 on the 99-byte sndH chunk of file3. -/
theorem claim4_witness :
    ∃ b, ev3.body = some b ∧ b.length = 100 ∧
      (sndhDecode b).outcome ≠ SndhOutcome.wrongSize :=
  claim4_padded_boundary.2.2 cfg3 true file3 3 s3 rfl ev3 (by decide) (by decide)
    (by decide)

/-- C8: the magic tag is read without byteswap; the XFIR ordering fixes
the endianness to little, the RIFX ordering fixes it to big, and any other
tag fails the walk with unsupportedFormat before any chunk is processed.
The flag is a parameter threaded unchanged through the loop, never
re-derived. -/
theorem claim8_magic (cfg : RiffConfig) (fsOk : Bool) (file : List Nat)
    (fuel : Nat) :
    (file.take 4 = XFIR → ∀ s, read_riff_file cfg fsOk file fuel =
      some (Except.ok s) → s.littleEndian = true) ∧
    (file.take 4 = RIFX → ∀ s, read_riff_file cfg fsOk file fuel =
      some (Except.ok s) → s.littleEndian = false) ∧
    (4 ≤ file.length → file.take 4 ≠ XFIR → file.take 4 ≠ RIFX →
      read_riff_file cfg fsOk file fuel =
        some (Except.error RiffError.unsupportedFormat)) := by
  have hrb : 4 ≤ file.length → readBytes file 0 4 = some (file.take 4) := by
    intro hlen
    unfold readBytes
    rw [if_pos (by omega), List.drop_zero]
  refine ⟨?_, ?_, ?_⟩
  · intro htake s h
    have hlen : 4 ≤ file.length := by
      have hl := congrArg List.length htake
      rw [List.length_take] at hl
      simp [XFIR] at hl
      omega
    simp only [read_riff_file, hrb hlen, htake, if_true] at h
    exact (readRiffWithEndian_ok h).1
  · intro htake s h
    have hlen : 4 ≤ file.length := by
      have hl := congrArg List.length htake
      rw [List.length_take] at hl
      simp [RIFX] at hl
      omega
    simp only [read_riff_file, hrb hlen, htake, if_true] at h
    exact (readRiffWithEndian_ok h).1
  · intro hlen hX hR
    simp only [read_riff_file, hrb hlen]
    rw [if_neg hX, if_neg hR]

/-- Witness for C8: an unrecognized magic fails, XFIR and RIFX fix the
two endiannesses. -/
theorem claim8_witness :
    read_riff_file cfg0 true [0, 0, 0, 0, 5] 3 =
      some (Except.error RiffError.unsupportedFormat) ∧
    s1.littleEndian = true ∧ s3.littleEndian = false :=
  ⟨(claim8_magic cfg0 true [0, 0, 0, 0, 5] 3).2.2 (by decide) (by decide)
      (by decide),
   (claim8_magic cfg0 true file1 3).1 (by decide) s1 rfl,
   (claim8_magic cfg3 true file3 3).2.1 (by decide) s3 rfl⟩
